import Mathlib

/-!
Verification of the node-scoring core in
`pkg/scheduler/plugins/nodeorder/nodeorder.go`.

Shallow embedding conventions:
* Go `int` is modelled as `Int` (the scores and weights in play are tiny,
  far from the 2^63 overflow boundary).
* The composite score is a Go `float64`, but every value ever added to it
  is `float64(i)` for an `int` `i`; `float64` conversion and addition are
  exact for integers of magnitude below 2^53, so the score is modelled as
  the exact `Int` it represents.
* Go maps read by the plugin (`nodeMap`, `ssn.Nodes`) are modelled as
  association lists `List (String × _)`; `range` iteration is modelled as
  list-order iteration.
* Fallible calls return `Except Err _`; Go's `return 0, err` is
  `Except.error err` (the accompanying zero value is not a result).
* The four priority heuristics (`priorities.LeastRequestedPriorityMap`,
  `priorities.BalancedResourceAllocationMap`,
  `priorities.CalculateNodeAffinityPriorityMap`,
  `priorities.NewInterPodAffinityPriority`) live in the external
  `k8s.io/kubernetes` library, outside this repository: the composite
  scorer is parameterized over them by a `Heuristics` bundle.
-/

namespace NodeOrder

/-- Error values (Go `error`). -/
abbrev Err := String

/-- A resource vector (the dimensions of `cache.Resource` that the
plugin's event handlers aggregate). -/
@[ext]
structure Resource where
  milliCPU : Int
  memory : Int
deriving DecidableEq, Repr

def Resource.add (a b : Resource) : Resource :=
  ⟨a.milliCPU + b.milliCPU, a.memory + b.memory⟩

def Resource.sub (a b : Resource) : Resource :=
  ⟨a.milliCPU - b.milliCPU, a.memory - b.memory⟩

def Resource.zero : Resource := ⟨0, 0⟩

/-- A pod (`v1.Pod`) as the plugin observes it: identity
(namespace/name), its `Spec.NodeName` assignment, and its aggregate
resource request. -/
structure Pod where
  ns : String
  name : String
  nodeName : String
  request : Resource
deriving DecidableEq, Repr

/-- The identity key of a pod (namespace/name), used by the scheduler
cache to match pods. -/
def Pod.key (p : Pod) : String × String := (p.ns, p.name)

/-- A `v1.Node` object; only its name matters to this development. -/
structure V1Node where
  name : String
deriving DecidableEq, Repr

/-- The scheduler-cache per-node state (`cache.NodeInfo`): the pods
currently placed on the node, the derived aggregate of their requests,
and the node object. -/
@[ext]
structure NodeInfo where
  pods : List Pod
  requested : Resource
  node : Option V1Node
deriving DecidableEq, Repr

/-- The sum of the requests of a pod list. -/
def sumRequests : List Pod → Resource
  | [] => Resource.zero
  | p :: rest => (sumRequests rest).add p.request

/-- Modelled from the spec: `cache.NewNodeInfo(pods...)` (external
`k8s.io/kubernetes` library) builds a per-node state entry from a pod
list, with the aggregate usage equal to the sum of their requests. -/
def NodeInfo.new (pods : List Pod) : NodeInfo :=
  ⟨pods, sumRequests pods, none⟩

/-- `cache.NodeInfo.SetNode` records the node object on the entry. -/
def NodeInfo.setNode (ni : NodeInfo) (n : V1Node) : NodeInfo :=
  { ni with node := some n }

/-- Modelled from the spec: `bind` / `cache.NodeInfo.AddPod` adds the
task to the node's bound set and adds its request to the aggregate
usage. -/
def NodeInfo.addPod (ni : NodeInfo) (p : Pod) : NodeInfo :=
  { ni with pods := ni.pods ++ [p], requested := ni.requested.add p.request }

/-- Remove the first pod with the given identity key from a list. -/
def removePodFromList : List Pod → Pod → List Pod
  | [], _ => []
  | q :: rest, p => if q.key = p.key then rest else q :: removePodFromList rest p

/-- Modelled from the spec: `unbind` / `cache.NodeInfo.RemovePod` is the
inverse of `bind`: it removes the (first) pod matching the identity key
and subtracts the passed pod's request from the aggregate usage; if no
pod matches, the entry is left unchanged. -/
def NodeInfo.removePod (ni : NodeInfo) (p : Pod) : NodeInfo :=
  if ni.pods.any (fun q => q.key = p.key) then
    { ni with pods := removePodFromList ni.pods p,
              requested := ni.requested.sub p.request }
  else ni

/-- A kube-batch `api.NodeInfo` as handed to the node-order function:
name, node object, and the pods of its currently bound tasks
(`node.Pods()`). -/
structure ApiNode where
  name : String
  node : V1Node
  pods : List Pod
deriving DecidableEq, Repr

/-- A `schedulerapi.HostPriority` entry: a host name and its score. -/
structure HostPriority where
  host : String
  score : Int
deriving DecidableEq, Repr

/-- `getInterPodAffinityScore` from the source: scan the host-priority
list and return the score of the first entry whose host matches, or 0
when none matches. -/
def getInterPodAffinityScore (name : String) :
    List HostPriority → Int
  | [] => 0
  | hp :: rest =>
    if hp.host = name then hp.score else getInterPodAffinityScore name rest

/-- The argument bag (`framework.Arguments`): a string-keyed map of raw
string values, modelled as an association list. -/
abbrev Arguments := List (String × String)

/-- The recognized weight keys, as declared in the source. -/
def NodeAffinityWeight : String := "nodeaffinity.weight"

def PodAffinityWeight : String := "podaffinity.weight"

def LeastRequestedWeight : String := "leastrequested.weight"

def BalancedResourceWeight : String := "balancedresource.weight"

/-- The `priorityWeight` struct from the source. -/
structure priorityWeight where
  leastReqWeight : Int
  nodeAffinityWeight : Int
  podAffinityWeight : Int
  balancedRescourceWeight : Int
deriving DecidableEq, Repr

/-- Modelled from the spec: `framework.Arguments.GetInt` (declared in
this repository's `framework` package, outside `src/`) overwrites the
pointed-to weight with the key's value when the key is present and
parseable as an integer, and otherwise leaves the default in place; it
never fails. The integer parser is an abstract parameter `parse`. -/
def getInt (parse : String → Option Int) (args : Arguments)
    (dflt : Int) (key : String) : Int :=
  match args.lookup key with
  | none => dflt
  | some raw => (parse raw).getD dflt

/-- `calculateWeight` from the source: start from all-1 defaults and let
each recognized key overwrite its field via `GetInt`. -/
def calculateWeight (parse : String → Option Int) (args : Arguments) :
    priorityWeight :=
  let weight : priorityWeight := ⟨1, 1, 1, 1⟩
  { weight with
    nodeAffinityWeight := getInt parse args weight.nodeAffinityWeight NodeAffinityWeight,
    podAffinityWeight := getInt parse args weight.podAffinityWeight PodAffinityWeight,
    leastReqWeight := getInt parse args weight.leastReqWeight LeastRequestedWeight,
    balancedRescourceWeight :=
      getInt parse args weight.balancedRescourceWeight BalancedResourceWeight }

/-- The four external priority heuristics the composite scorer invokes,
as abstract parameters. The first three map a (pod, node-state) pair to
a host priority; the inter-pod-affinity pass maps a pod together with
the pod-lister view, the node map and the node slice to one entry per
host. -/
structure Heuristics where
  leastRequestedPriorityMap : Pod → NodeInfo → Except Err HostPriority
  balancedResourceAllocationMap : Pod → NodeInfo → Except Err HostPriority
  calculateNodeAffinityPriorityMap : Pod → NodeInfo → Except Err HostPriority
  interPodAffinity : Pod → List Pod → List (String × NodeInfo) → List V1Node →
    Except Err (List HostPriority)

/-- The mutable per-session state the plugin closes over: the node map
built at session open and the pod-lister's task-placement view. -/
structure PluginState where
  nodeMap : List (String × NodeInfo)
  podLister : List Pod
deriving DecidableEq, Repr

/-- The node-state resolution step at the top of `nodeOrderFn`: reuse
the indexed entry, or synthesize a transient one from the node's own
pods (`cache.NewNodeInfo(node.Pods()...)` followed by `SetNode`). -/
def resolveNodeInfo (nodeMap : List (String × NodeInfo)) (node : ApiNode) :
    NodeInfo :=
  match nodeMap.lookup node.name with
  | some ni => ni
  | none => (NodeInfo.new node.pods).setNode node.node

/-- The composite score computed against an explicitly given node-state
entry: the weighted-sum body of `nodeOrderFn` after the entry has been
resolved. -/
def scoreAgainstEntry (H : Heuristics) (weight : priorityWeight)
    (st : PluginState) (nodeSlice : List V1Node)
    (task : Pod) (node : ApiNode) (nodeInfo : NodeInfo) : Except Err Int := do
  let host ← H.leastRequestedPriorityMap task nodeInfo
  let score := host.score * weight.leastReqWeight
  let host ← H.balancedResourceAllocationMap task nodeInfo
  let score := score + host.score * weight.balancedRescourceWeight
  let host ← H.calculateNodeAffinityPriorityMap task nodeInfo
  let score := score + host.score * weight.nodeAffinityWeight
  let interPodAffinityScore ← H.interPodAffinity task st.podLister st.nodeMap nodeSlice
  let hostScore := getInterPodAffinityScore node.name interPodAffinityScore
  pure (score + hostScore * weight.podAffinityWeight)

/-- `nodeOrderFn` from the source: resolve the node's state entry (a
transient synthesized entry when the node is absent from `nodeMap` — not
inserted into the map), then run the four heuristics in order, each
error short-circuiting the rest, and return the weighted sum. -/
def nodeOrderFn (H : Heuristics) (weight : priorityWeight)
    (st : PluginState) (nodeSlice : List V1Node)
    (task : Pod) (node : ApiNode) : Except Err Int :=
  scoreAgainstEntry H weight st nodeSlice task node
    (resolveNodeInfo st.nodeMap node)

/-- The names of the four heuristics, in the fixed invocation order of
`nodeOrderFn`. -/
inductive HName where
  | leastRequested
  | balancedResource
  | nodeAffinity
  | interPodAffinity
deriving DecidableEq, Repr

/-- `nodeOrderFn` instrumented with the list of heuristics actually
invoked, in order, mirroring the source statement for statement: each
heuristic call appends its name, and an error returns immediately, so
the later heuristics never run. -/
def nodeOrderFnTrace (H : Heuristics) (weight : priorityWeight)
    (st : PluginState) (nodeSlice : List V1Node)
    (task : Pod) (node : ApiNode) : Except Err Int × List HName :=
  let nodeInfo := resolveNodeInfo st.nodeMap node
  match H.leastRequestedPriorityMap task nodeInfo with
  | .error e => (.error e, [.leastRequested])
  | .ok h1 =>
    match H.balancedResourceAllocationMap task nodeInfo with
    | .error e => (.error e, [.leastRequested, .balancedResource])
    | .ok h2 =>
      match H.calculateNodeAffinityPriorityMap task nodeInfo with
      | .error e => (.error e, [.leastRequested, .balancedResource, .nodeAffinity])
      | .ok h3 =>
        match H.interPodAffinity task st.podLister st.nodeMap nodeSlice with
        | .error e =>
          (.error e,
           [.leastRequested, .balancedResource, .nodeAffinity, .interPodAffinity])
        | .ok ipa =>
          (.ok (h1.score * weight.leastReqWeight
                + h2.score * weight.balancedRescourceWeight
                + h3.score * weight.nodeAffinityWeight
                + getInterPodAffinityScore node.name ipa * weight.podAffinityWeight),
           [.leastRequested, .balancedResource, .nodeAffinity, .interPodAffinity])

/-- The scorer in explicit state-passing style: the result of the call
together with the plugin state as it stands afterwards. The synthesized
entry of an unindexed node is a local value, never written back, and no
step of the source closure writes `nodeMap` or the pod lister, so the
state out is the state in; this definition makes that visible. -/
def nodeOrderFnSt (H : Heuristics) (weight : priorityWeight)
    (st : PluginState) (nodeSlice : List V1Node)
    (task : Pod) (node : ApiNode) : Except Err Int × PluginState :=
  (nodeOrderFn H weight st nodeSlice task node, st)

/-- A kube-batch `api.NodeInfo` stored in `ssn.Nodes`: the node object
and the pods of its tasks (`cacheNode.Pods()`). -/
structure SessionNode where
  node : V1Node
  pods : List Pod
deriving DecidableEq, Repr

/-- `cachedNodeInfo.GetNodeInfo` from the source: return the named
node's object when the session knows the name; otherwise scan the cached
nodes and return the first one hosting a pod whose `Spec.NodeName` is
empty; error only when that scan also finds nothing. -/
def GetNodeInfo (nodes : List (String × SessionNode)) (name : String) :
    Except Err V1Node :=
  match nodes.lookup name with
  | some ni => .ok ni.node
  | none =>
    match nodes.find? (fun p => p.2.pods.any (fun pod => pod.nodeName = "")) with
    | some p => .ok p.2.node
    | none => .error ("failed to find node <" ++ name ++ ">")

/-- Modelled from the spec: `util.PodLister.UpdateTask` (declared in
this repository's `plugins/util` package, outside `src/`) sets the
task's assigned node name in the lister's task-placement view and
returns the updated pod. -/
def updateTask (pl : List Pod) (task : Pod) (nodeName : String) :
    Pod × List Pod :=
  let pod := { task with nodeName := nodeName }
  (pod, pl.map (fun q => if q.key = task.key then pod else q))

/-- Point update of the node map (the Go handlers mutate the
`*cache.NodeInfo` the map points to in place). -/
def mapUpdate (m : List (String × NodeInfo)) (key : String) (v : NodeInfo) :
    List (String × NodeInfo) :=
  m.map (fun p => if p.1 = key then (key, v) else p)

/-- The `AllocateFunc` event handler from the source: first update the
pod-lister view with the task's (already set) node name, then, only if
the node is indexed, add the pod to its entry; an unindexed node leaves
the node map untouched (warning only). -/
def allocateFunc (st : PluginState) (task : Pod) : PluginState :=
  let res := updateTask st.podLister task task.nodeName
  let pod := res.1
  let pl := res.2
  match st.nodeMap.lookup task.nodeName with
  | none => { st with podLister := pl }
  | some ni =>
    { nodeMap := mapUpdate st.nodeMap task.nodeName (ni.addPod pod),
      podLister := pl }

/-- The `DeallocateFunc` event handler from the source: first clear the
task's node name in the pod-lister view, then, only if the node is
indexed, remove the pod from its entry; an unindexed node leaves the
node map untouched (warning only). -/
def deallocateFunc (st : PluginState) (task : Pod) : PluginState :=
  let res := updateTask st.podLister task ""
  let pod := res.1
  let pl := res.2
  match st.nodeMap.lookup task.nodeName with
  | none => { st with podLister := pl }
  | some ni =>
    { nodeMap := mapUpdate st.nodeMap task.nodeName (ni.removePod pod),
      podLister := pl }

/-- The core state invariant: a node entry's aggregate usage equals the
sum of the requests of its bound pods. -/
def invEntry (ni : NodeInfo) : Prop :=
  ni.requested = sumRequests ni.pods

/-- The invariant over the whole node map. -/
def invState (st : PluginState) : Prop :=
  ∀ p ∈ st.nodeMap, invEntry p.2

/-- The spec's description of the synthesized fallback entry for a node
absent from the index: a transient EMPTY state entry for the node.
Modelled from the spec: "synthesize a transient empty entry". -/
def specEmptyEntry (node : ApiNode) : NodeInfo :=
  (NodeInfo.new []).setNode node.node

/-! ### Helper lemmas -/

theorem Resource.add_sub_cancel (a b : Resource) : (a.add b).sub b = a := by
  ext <;> simp [Resource.add, Resource.sub]

theorem Resource.add_right_comm (a b c : Resource) :
    (a.add b).add c = (a.add c).add b := by
  ext <;> simp [Resource.add] <;> ring

theorem Resource.sub_add_comm (a b c : Resource) :
    (a.sub b).add c = (a.add c).sub b := by
  ext <;> simp [Resource.add, Resource.sub] <;> ring

theorem scoreAgainstEntry_eq_of_ok (H : Heuristics) (w : priorityWeight)
    (st : PluginState) (ns : List V1Node) (task : Pod) (node : ApiNode)
    (ni : NodeInfo) (h1 h2 h3 : HostPriority) (l : List HostPriority)
    (e1 : H.leastRequestedPriorityMap task ni = .ok h1)
    (e2 : H.balancedResourceAllocationMap task ni = .ok h2)
    (e3 : H.calculateNodeAffinityPriorityMap task ni = .ok h3)
    (e4 : H.interPodAffinity task st.podLister st.nodeMap ns = .ok l) :
    scoreAgainstEntry H w st ns task node ni =
      .ok (h1.score * w.leastReqWeight
           + h2.score * w.balancedRescourceWeight
           + h3.score * w.nodeAffinityWeight
           + getInterPodAffinityScore node.name l * w.podAffinityWeight) := by
  simp [scoreAgainstEntry, e1, e2, e3, e4, bind, Except.bind, pure,
    Except.pure, add_assoc]

theorem scoreAgainstEntry_error_first (H : Heuristics) (w : priorityWeight)
    (st : PluginState) (ns : List V1Node) (task : Pod) (node : ApiNode)
    (ni : NodeInfo) (e : Err)
    (e1 : H.leastRequestedPriorityMap task ni = .error e) :
    scoreAgainstEntry H w st ns task node ni = .error e := by
  simp [scoreAgainstEntry, e1, bind, Except.bind]

theorem lookup_mem {α β : Type} [BEq α] [LawfulBEq α]
    (m : List (α × β)) (k : α) (v : β) (h : m.lookup k = some v) :
    (k, v) ∈ m := by
  induction m with
  | nil => simp [List.lookup] at h
  | cons p rest ih =>
    rw [List.lookup] at h
    by_cases hk : k = p.1
    · simp [hk] at h
      subst h
      simp [hk]
    · have : (k == p.1) = false := beq_false_of_ne hk
      rw [this] at h
      simp at h ⊢
      exact Or.inr (ih h)

theorem lookup_mapUpdate_self (m : List (String × NodeInfo)) (k : String)
    (v ni : NodeInfo) (h : m.lookup k = some ni) :
    (mapUpdate m k v).lookup k = some v := by
  induction m with
  | nil => simp [List.lookup] at h
  | cons p rest ih =>
    rw [List.lookup] at h
    by_cases hk : k = p.1
    · subst hk
      show List.lookup p.1
          ((if p.1 = p.1 then (p.1, v) else p) :: mapUpdate rest p.1 v) = some v
      rw [if_pos rfl, List.lookup, beq_self_eq_true]
    · have hb : (k == p.1) = false := beq_false_of_ne hk
      rw [hb] at h
      have h' : List.lookup k rest = some ni := h
      have hne : ¬ (p.1 = k) := fun hc => hk hc.symm
      simp only [mapUpdate, List.map_cons, if_neg hne]
      rw [List.lookup, hb]
      exact ih h'

theorem mem_mapUpdate (m : List (String × NodeInfo)) (k : String)
    (v : NodeInfo) (p : String × NodeInfo) (h : p ∈ mapUpdate m k v) :
    p ∈ m ∨ p = (k, v) := by
  induction m with
  | nil => simp [mapUpdate] at h
  | cons q rest ih =>
    simp only [mapUpdate, List.map, List.mem_cons] at h
    rcases h with h | h
    · by_cases hq : q.1 = k
      · rw [if_pos hq] at h
        exact Or.inr h
      · rw [if_neg hq] at h
        exact Or.inl (by simp [h])
    · rcases ih h with h' | h'
      · exact Or.inl (List.mem_cons_of_mem _ h')
      · exact Or.inr h'

theorem sumRequests_append_one (l : List Pod) (p : Pod) :
    sumRequests (l ++ [p]) = (sumRequests l).add p.request := by
  induction l with
  | nil =>
    ext <;> simp [sumRequests, Resource.add, Resource.zero]
  | cons q rest ih =>
    show (sumRequests (rest ++ [p])).add q.request
        = ((sumRequests rest).add q.request).add p.request
    rw [ih, Resource.add_right_comm]

theorem removePodFromList_append_self (l : List Pod) (p q0 : Pod)
    (hk : q0.key = p.key) (h : ∀ q ∈ l, q.key ≠ p.key) :
    removePodFromList (l ++ [q0]) p = l := by
  induction l with
  | nil => simp [removePodFromList, hk]
  | cons q rest ih =>
    have hq : q.key ≠ p.key := h q (by simp)
    show (if q.key = p.key then rest ++ [q0]
          else q :: removePodFromList (rest ++ [q0]) p) = q :: rest
    rw [if_neg hq, ih (fun r hr => h r (by simp [hr]))]

theorem any_key_append_self (l : List Pod) (p q0 : Pod) (hk : q0.key = p.key) :
    (l ++ [q0]).any (fun q => q.key = p.key) = true := by
  simp [List.any_append, hk]

theorem sumRequests_remove (l : List Pod) (p : Pod)
    (hreq : ∀ q ∈ l, q.key = p.key → q.request = p.request)
    (hmem : l.any (fun q => q.key = p.key) = true) :
    sumRequests (removePodFromList l p) = (sumRequests l).sub p.request := by
  induction l with
  | nil => simp at hmem
  | cons q rest ih =>
    by_cases hq : q.key = p.key
    · have hr : q.request = p.request := hreq q (by simp) hq
      simp only [removePodFromList, if_pos hq, sumRequests]
      rw [hr, Resource.add_sub_cancel]
    · simp only [List.any_cons, Bool.or_eq_true, decide_eq_true_eq] at hmem
      rcases hmem with hmem | hmem
      · exact absurd hmem hq
      · have ihh := ih (fun r hr => hreq r (by simp [hr])) hmem
        simp only [removePodFromList, if_neg hq, sumRequests, ihh]
        rw [Resource.sub_add_comm]

theorem find?_of_first {α : Type} (l : List α) (pb : α → Bool) (i : ℕ)
    (hi : i < l.length) (hpos : pb (l.get ⟨i, hi⟩) = true)
    (hfirst : ∀ j (hj : j < i), pb (l.get ⟨j, Nat.lt_trans hj hi⟩) = false) :
    l.find? pb = some (l.get ⟨i, hi⟩) := by
  induction l generalizing i with
  | nil => simp at hi
  | cons a rest ih =>
    cases i with
    | zero =>
      simp only [List.get] at hpos
      simp [List.find?, hpos]
    | succ i' =>
      have h0 : pb a = false := hfirst 0 (Nat.succ_pos i')
      simp only [List.find?, h0]
      exact ih i' (Nat.lt_of_succ_lt_succ hi) hpos
        (fun j hj => hfirst (j + 1) (Nat.succ_lt_succ hj))

/-! ### Concrete instances used by witnesses and counterexamples -/

def rA : Resource := ⟨100, 200⟩

def podA : Pod := ⟨"ns1", "p1", "", rA⟩

def nodeA : ApiNode := ⟨"n1", ⟨"n1"⟩, []⟩

def stA : PluginState := ⟨[("n1", NodeInfo.new [])], [podA]⟩

def wA : priorityWeight := ⟨2, 3, 4, 5⟩

def Hok : Heuristics :=
  ⟨fun _ _ => .ok ⟨"n1", 7⟩, fun _ _ => .ok ⟨"n1", 8⟩,
   fun _ _ => .ok ⟨"n1", 9⟩, fun _ _ _ _ => .ok [⟨"n1", 10⟩]⟩

def HerrLR : Heuristics :=
  ⟨fun _ _ => .error "lr-fail", fun _ _ => .ok ⟨"n1", 8⟩,
   fun _ _ => .ok ⟨"n1", 9⟩, fun _ _ _ _ => .ok []⟩

def HerrBR : Heuristics :=
  ⟨fun _ _ => .ok ⟨"n1", 7⟩, fun _ _ => .error "br-fail",
   fun _ _ => .ok ⟨"n1", 9⟩, fun _ _ _ _ => .ok []⟩

def HerrNA : Heuristics :=
  ⟨fun _ _ => .ok ⟨"n1", 7⟩, fun _ _ => .ok ⟨"n1", 8⟩,
   fun _ _ => .error "na-fail", fun _ _ _ _ => .ok []⟩

def HerrIPA : Heuristics :=
  ⟨fun _ _ => .ok ⟨"n1", 7⟩, fun _ _ => .ok ⟨"n1", 8⟩,
   fun _ _ => .ok ⟨"n1", 9⟩, fun _ _ _ _ => .error "ipa-fail"⟩

/-- A heuristic bundle whose Least-Requested sub-score counts the pods
of the node-state entry it is given, distinguishing entries with
different pod lists. -/
def Hpods : Heuristics :=
  ⟨fun _ ni => .ok ⟨"n1", Int.ofNat ni.pods.length⟩, fun _ _ => .ok ⟨"n1", 0⟩,
   fun _ _ => .ok ⟨"n1", 0⟩, fun _ _ _ _ => .ok []⟩

def nodeB : ApiNode := ⟨"n2", ⟨"n2"⟩, []⟩

def nodeC : ApiNode := ⟨"n1", ⟨"n1"⟩, [podA]⟩

def stEmpty : PluginState := ⟨[], []⟩

def taskB : Pod := ⟨"ns1", "p1", "n9", rA⟩

def podC : Pod := ⟨"ns1", "p2", "n1", rA⟩

def parseA : String → Option Int := fun s => if s = "2" then some 2 else none

def argsA : Arguments :=
  [("nodeaffinity.weight", "2"), ("podaffinity.weight", "xyz"),
   ("balancedresource.weight", "2"), ("other.key", "5")]

def argsB : Arguments :=
  [("balancedresource.weight", "2"), ("nodeaffinity.weight", "2"),
   ("podaffinity.weight", "xyz"), ("unrelated", "9")]

def snodes : List (String × SessionNode) :=
  [("n1", ⟨⟨"n1"⟩, [⟨"ns1", "q1", "n1", rA⟩]⟩),
   ("n2", ⟨⟨"n2"⟩, [⟨"ns1", "q2", "", rA⟩]⟩)]

def snodesBound : List (String × SessionNode) :=
  [("n1", ⟨⟨"n1"⟩, [⟨"ns1", "q1", "n1", rA⟩]⟩)]

/-! ### Claim theorems -/

/-- **C1**: when all four heuristics succeed, the composite score is the
sum of each raw sub-score multiplied by its weight, and with all four
weights equal to 1 it is the unweighted sum of the four sub-scores. -/
theorem nodeOrderFn_weighted_sum (H : Heuristics) (w : priorityWeight)
    (st : PluginState) (ns : List V1Node) (task : Pod) (node : ApiNode)
    (h1 h2 h3 : HostPriority) (l : List HostPriority)
    (e1 : H.leastRequestedPriorityMap task (resolveNodeInfo st.nodeMap node) = .ok h1)
    (e2 : H.balancedResourceAllocationMap task (resolveNodeInfo st.nodeMap node) = .ok h2)
    (e3 : H.calculateNodeAffinityPriorityMap task (resolveNodeInfo st.nodeMap node) = .ok h3)
    (e4 : H.interPodAffinity task st.podLister st.nodeMap ns = .ok l) :
    nodeOrderFn H w st ns task node =
      .ok (h1.score * w.leastReqWeight + h2.score * w.balancedRescourceWeight
           + h3.score * w.nodeAffinityWeight
           + getInterPodAffinityScore node.name l * w.podAffinityWeight)
    ∧ nodeOrderFn H ⟨1, 1, 1, 1⟩ st ns task node =
      .ok (h1.score + h2.score + h3.score + getInterPodAffinityScore node.name l) := by
  constructor
  · exact scoreAgainstEntry_eq_of_ok H w st ns task node _ h1 h2 h3 l e1 e2 e3 e4
  · have h := scoreAgainstEntry_eq_of_ok H ⟨1, 1, 1, 1⟩ st ns task node
      (resolveNodeInfo st.nodeMap node) h1 h2 h3 l e1 e2 e3 e4
    simpa [add_assoc] using h

/-- Witness for C1 at a concrete heuristic bundle, weight set and
state. -/
theorem nodeOrderFn_weighted_sum_app :
    nodeOrderFn Hok wA stA [] podA nodeA = .ok (7 * 2 + 8 * 5 + 9 * 3 + 10 * 4)
    ∧ nodeOrderFn Hok ⟨1, 1, 1, 1⟩ stA [] podA nodeA = .ok (7 + 8 + 9 + 10) :=
  nodeOrderFn_weighted_sum Hok wA stA [] podA nodeA ⟨"n1", 7⟩ ⟨"n1", 8⟩ ⟨"n1", 9⟩
    [⟨"n1", 10⟩] rfl rfl rfl rfl

/-- **C2**: the first heuristic that errors makes the composite call
return that error; the heuristics run in the fixed order Least-Requested,
Balanced-Resource, Node-Affinity, Inter-Task-Affinity, the later ones
are not invoked (the invocation trace stops at the failing one), and no
partial or zero score is returned as a valid result. -/
theorem nodeOrderFn_error_short_circuit (H : Heuristics) (w : priorityWeight)
    (st : PluginState) (ns : List V1Node) (task : Pod) (node : ApiNode) :
    (∀ e, H.leastRequestedPriorityMap task (resolveNodeInfo st.nodeMap node) = .error e →
      nodeOrderFn H w st ns task node = .error e ∧
      nodeOrderFnTrace H w st ns task node = (.error e, [.leastRequested])) ∧
    (∀ h1 e, H.leastRequestedPriorityMap task (resolveNodeInfo st.nodeMap node) = .ok h1 →
      H.balancedResourceAllocationMap task (resolveNodeInfo st.nodeMap node) = .error e →
      nodeOrderFn H w st ns task node = .error e ∧
      nodeOrderFnTrace H w st ns task node =
        (.error e, [.leastRequested, .balancedResource])) ∧
    (∀ h1 h2 e, H.leastRequestedPriorityMap task (resolveNodeInfo st.nodeMap node) = .ok h1 →
      H.balancedResourceAllocationMap task (resolveNodeInfo st.nodeMap node) = .ok h2 →
      H.calculateNodeAffinityPriorityMap task (resolveNodeInfo st.nodeMap node) = .error e →
      nodeOrderFn H w st ns task node = .error e ∧
      nodeOrderFnTrace H w st ns task node =
        (.error e, [.leastRequested, .balancedResource, .nodeAffinity])) ∧
    (∀ h1 h2 h3 e, H.leastRequestedPriorityMap task (resolveNodeInfo st.nodeMap node) = .ok h1 →
      H.balancedResourceAllocationMap task (resolveNodeInfo st.nodeMap node) = .ok h2 →
      H.calculateNodeAffinityPriorityMap task (resolveNodeInfo st.nodeMap node) = .ok h3 →
      H.interPodAffinity task st.podLister st.nodeMap ns = .error e →
      nodeOrderFn H w st ns task node = .error e ∧
      nodeOrderFnTrace H w st ns task node =
        (.error e,
         [.leastRequested, .balancedResource, .nodeAffinity, .interPodAffinity])) := by
  refine ⟨?_, ?_, ?_, ?_⟩
  · intro e e1
    constructor
    · exact scoreAgainstEntry_error_first H w st ns task node _ e e1
    · simp [nodeOrderFnTrace, e1]
  · intro h1 e e1 e2
    constructor
    · simp [nodeOrderFn, scoreAgainstEntry, e1, e2, bind, Except.bind]
    · simp [nodeOrderFnTrace, e1, e2]
  · intro h1 h2 e e1 e2 e3
    constructor
    · simp [nodeOrderFn, scoreAgainstEntry, e1, e2, e3, bind, Except.bind]
    · simp [nodeOrderFnTrace, e1, e2, e3]
  · intro h1 h2 h3 e e1 e2 e3 e4
    constructor
    · simp [nodeOrderFn, scoreAgainstEntry, e1, e2, e3, e4, bind, Except.bind]
    · simp [nodeOrderFnTrace, e1, e2, e3, e4]

/-- Witness for C2: each of the four heuristics made to fail
deterministically short-circuits the composite call. -/
theorem nodeOrderFn_error_short_circuit_app :
    (nodeOrderFn HerrLR wA stA [] podA nodeA = .error "lr-fail" ∧
      nodeOrderFnTrace HerrLR wA stA [] podA nodeA =
        (.error "lr-fail", [.leastRequested])) ∧
    (nodeOrderFn HerrBR wA stA [] podA nodeA = .error "br-fail" ∧
      nodeOrderFnTrace HerrBR wA stA [] podA nodeA =
        (.error "br-fail", [.leastRequested, .balancedResource])) ∧
    (nodeOrderFn HerrNA wA stA [] podA nodeA = .error "na-fail" ∧
      nodeOrderFnTrace HerrNA wA stA [] podA nodeA =
        (.error "na-fail", [.leastRequested, .balancedResource, .nodeAffinity])) ∧
    (nodeOrderFn HerrIPA wA stA [] podA nodeA = .error "ipa-fail" ∧
      nodeOrderFnTrace HerrIPA wA stA [] podA nodeA =
        (.error "ipa-fail",
         [.leastRequested, .balancedResource, .nodeAffinity, .interPodAffinity])) :=
  ⟨(nodeOrderFn_error_short_circuit HerrLR wA stA [] podA nodeA).1 "lr-fail" rfl,
   (nodeOrderFn_error_short_circuit HerrBR wA stA [] podA nodeA).2.1
     ⟨"n1", 7⟩ "br-fail" rfl rfl,
   (nodeOrderFn_error_short_circuit HerrNA wA stA [] podA nodeA).2.2.1
     ⟨"n1", 7⟩ ⟨"n1", 8⟩ "na-fail" rfl rfl rfl,
   (nodeOrderFn_error_short_circuit HerrIPA wA stA [] podA nodeA).2.2.2
     ⟨"n1", 7⟩ ⟨"n1", 8⟩ ⟨"n1", 9⟩ "ipa-fail" rfl rfl rfl rfl⟩

/-- **C5**: the inter-task-affinity contribution extracted for a
candidate node equals the score of the first result entry whose host
equals the node's name, and 0 (not an error) when no entry matches. -/
theorem getInterPodAffinityScore_first_match (name : String)
    (l : List HostPriority) :
    getInterPodAffinityScore name l =
      ((l.find? (fun hp => hp.host = name)).map HostPriority.score).getD 0 := by
  induction l with
  | nil => rfl
  | cons hp rest ih =>
    by_cases h : hp.host = name
    · rw [getInterPodAffinityScore, if_pos h, List.find?_cons_of_pos]
      · rfl
      · simp [h]
    · rw [getInterPodAffinityScore, if_neg h, ih, List.find?_cons_of_neg]
      simp [h]

/-- **C3**: `calculateWeight` gives each of the four recognized keys its
parsed integer value when present and parseable and 1 otherwise,
unrecognized keys have no effect, and the function is total (it never
fails, by construction). -/
theorem calculateWeight_spec (parse : String → Option Int) (args : Arguments) :
    (∀ raw v, args.lookup NodeAffinityWeight = some raw → parse raw = some v →
      (calculateWeight parse args).nodeAffinityWeight = v) ∧
    (∀ raw, args.lookup NodeAffinityWeight = some raw → parse raw = none →
      (calculateWeight parse args).nodeAffinityWeight = 1) ∧
    (args.lookup NodeAffinityWeight = none →
      (calculateWeight parse args).nodeAffinityWeight = 1) ∧
    (∀ raw v, args.lookup PodAffinityWeight = some raw → parse raw = some v →
      (calculateWeight parse args).podAffinityWeight = v) ∧
    (∀ raw, args.lookup PodAffinityWeight = some raw → parse raw = none →
      (calculateWeight parse args).podAffinityWeight = 1) ∧
    (args.lookup PodAffinityWeight = none →
      (calculateWeight parse args).podAffinityWeight = 1) ∧
    (∀ raw v, args.lookup LeastRequestedWeight = some raw → parse raw = some v →
      (calculateWeight parse args).leastReqWeight = v) ∧
    (∀ raw, args.lookup LeastRequestedWeight = some raw → parse raw = none →
      (calculateWeight parse args).leastReqWeight = 1) ∧
    (args.lookup LeastRequestedWeight = none →
      (calculateWeight parse args).leastReqWeight = 1) ∧
    (∀ raw v, args.lookup BalancedResourceWeight = some raw → parse raw = some v →
      (calculateWeight parse args).balancedRescourceWeight = v) ∧
    (∀ raw, args.lookup BalancedResourceWeight = some raw → parse raw = none →
      (calculateWeight parse args).balancedRescourceWeight = 1) ∧
    (args.lookup BalancedResourceWeight = none →
      (calculateWeight parse args).balancedRescourceWeight = 1) ∧
    (∀ args' : Arguments,
      args.lookup NodeAffinityWeight = args'.lookup NodeAffinityWeight →
      args.lookup PodAffinityWeight = args'.lookup PodAffinityWeight →
      args.lookup LeastRequestedWeight = args'.lookup LeastRequestedWeight →
      args.lookup BalancedResourceWeight = args'.lookup BalancedResourceWeight →
      calculateWeight parse args = calculateWeight parse args') := by
  refine ⟨fun raw v hl hp => by simp [calculateWeight, getInt, hl, hp],
    fun raw hl hp => by simp [calculateWeight, getInt, hl, hp],
    fun hl => by simp [calculateWeight, getInt, hl],
    fun raw v hl hp => by simp [calculateWeight, getInt, hl, hp],
    fun raw hl hp => by simp [calculateWeight, getInt, hl, hp],
    fun hl => by simp [calculateWeight, getInt, hl],
    fun raw v hl hp => by simp [calculateWeight, getInt, hl, hp],
    fun raw hl hp => by simp [calculateWeight, getInt, hl, hp],
    fun hl => by simp [calculateWeight, getInt, hl],
    fun raw v hl hp => by simp [calculateWeight, getInt, hl, hp],
    fun raw hl hp => by simp [calculateWeight, getInt, hl, hp],
    fun hl => by simp [calculateWeight, getInt, hl],
    fun args' h1 h2 h3 h4 => by simp [calculateWeight, getInt, h1, h2, h3, h4]⟩

/-- Witness for C3: a concrete argument bag with a parseable key, an
unparseable key, an absent key, and unrecognized keys. -/
theorem calculateWeight_spec_app :
    (calculateWeight parseA argsA).nodeAffinityWeight = 2 ∧
    (calculateWeight parseA argsA).podAffinityWeight = 1 ∧
    (calculateWeight parseA argsA).leastReqWeight = 1 ∧
    (calculateWeight parseA argsA).balancedRescourceWeight = 2 ∧
    calculateWeight parseA argsA = calculateWeight parseA argsB := by
  obtain ⟨na1, _, _, _, pa2, _, _, _, lr0, br1, _, _, keysOnly⟩ :=
    calculateWeight_spec parseA argsA
  exact ⟨na1 "2" 2 rfl rfl, pa2 "xyz" rfl rfl, lr0 rfl, br1 "2" 2 rfl rfl,
    keysOnly argsB rfl rfl rfl rfl⟩

/-- The claim C4's reading of the synthesized fallback state: the score
of an unindexed node is computed against an EMPTY synthetic entry. The
code instead synthesizes the entry from the node's own pod list, so a
pod-sensitive heuristic distinguishes the two on a node hosting a pod. -/
theorem nodeOrderFn_empty_entry_cex :
    stEmpty.nodeMap.lookup nodeC.name = none ∧
    nodeOrderFn Hpods ⟨1, 1, 1, 1⟩ stEmpty [] podA nodeC ≠
      scoreAgainstEntry Hpods ⟨1, 1, 1, 1⟩ stEmpty [] podA nodeC
        (specEmptyEntry nodeC) := by
  constructor
  · rfl
  · intro h
    have h' : (Except.ok (1 : Int) : Except Err Int) = Except.ok (0 : Int) := h
    simp at h'

/-- **C4** (amended): for a node absent from the index, `nodeOrderFn`
synthesizes a transient entry from the node's OWN pod list (empty only
when the node hosts no pods), does not insert it into the index, scores
against it, and does not fail for that reason (it fails only if a
heuristic fails). -/
theorem nodeOrderFn_unknown_node_synthesized (H : Heuristics)
    (w : priorityWeight) (st : PluginState) (ns : List V1Node)
    (task : Pod) (node : ApiNode)
    (habs : st.nodeMap.lookup node.name = none) :
    nodeOrderFn H w st ns task node =
      scoreAgainstEntry H w st ns task node
        ((NodeInfo.new node.pods).setNode node.node) ∧
    (∀ h1 h2 h3 l,
      H.leastRequestedPriorityMap task ((NodeInfo.new node.pods).setNode node.node) = .ok h1 →
      H.balancedResourceAllocationMap task ((NodeInfo.new node.pods).setNode node.node) = .ok h2 →
      H.calculateNodeAffinityPriorityMap task ((NodeInfo.new node.pods).setNode node.node) = .ok h3 →
      H.interPodAffinity task st.podLister st.nodeMap ns = .ok l →
      ∃ v, nodeOrderFn H w st ns task node = .ok v) := by
  have hres : resolveNodeInfo st.nodeMap node =
      (NodeInfo.new node.pods).setNode node.node := by
    simp [resolveNodeInfo, habs]
  constructor
  · show scoreAgainstEntry H w st ns task node (resolveNodeInfo st.nodeMap node) = _
    rw [hres]
  · intro h1 h2 h3 l e1 e2 e3 e4
    refine ⟨h1.score * w.leastReqWeight + h2.score * w.balancedRescourceWeight
      + h3.score * w.nodeAffinityWeight
      + getInterPodAffinityScore node.name l * w.podAffinityWeight, ?_⟩
    show scoreAgainstEntry H w st ns task node (resolveNodeInfo st.nodeMap node) = _
    rw [hres]
    exact scoreAgainstEntry_eq_of_ok H w st ns task node _ h1 h2 h3 l e1 e2 e3 e4

/-- Witness for C4 (amended) at a node absent from the index. -/
theorem nodeOrderFn_unknown_node_synthesized_app :
    nodeOrderFn Hok wA stA [] podA nodeB =
      scoreAgainstEntry Hok wA stA [] podA nodeB
        ((NodeInfo.new nodeB.pods).setNode nodeB.node) ∧
    (∃ v, nodeOrderFn Hok wA stA [] podA nodeB = .ok v) := by
  obtain ⟨h1, h2⟩ := nodeOrderFn_unknown_node_synthesized Hok wA stA [] podA nodeB rfl
  exact ⟨h1, h2 ⟨"n1", 7⟩ ⟨"n1", 8⟩ ⟨"n1", 9⟩ [⟨"n1", 10⟩] rfl rfl rfl rfl⟩

/-- The claim C6's assertion that an allocate event on a node absent
from the index performs NO state mutation fails: the handler updates the
pod-lister's task-placement view (it sets the task's node name) before
it ever looks the node up, so that view changes even though the node map
does not. -/
theorem allocateFunc_unknown_node_mutates_lister_cex :
    stA.nodeMap.lookup taskB.nodeName = none ∧
    (allocateFunc stA taskB).podLister ≠ stA.podLister := by
  refine ⟨rfl, ?_⟩
  intro h
  have h' : ([⟨"ns1", "p1", "n9", rA⟩] : List Pod) = [⟨"ns1", "p1", "", rA⟩] := h
  simp at h'

/-- **C6** (amended): for an allocate or deallocate event whose target
node is not in the index, the handler logs a warning and leaves the
index unchanged, but the task-placement view is still updated: the
task's assigned node name is set (allocate) or cleared (deallocate)
before the index lookup happens. -/
theorem eventHandlers_unknown_node_index_unchanged (st : PluginState)
    (task : Pod) (h : st.nodeMap.lookup task.nodeName = none) :
    (allocateFunc st task).nodeMap = st.nodeMap ∧
    (deallocateFunc st task).nodeMap = st.nodeMap ∧
    (allocateFunc st task).podLister = (updateTask st.podLister task task.nodeName).2 ∧
    (deallocateFunc st task).podLister = (updateTask st.podLister task "").2 := by
  refine ⟨?_, ?_, ?_, ?_⟩ <;> simp [allocateFunc, deallocateFunc, h]

/-- Witness for C6 (amended) at a concrete state and unknown node. -/
theorem eventHandlers_unknown_node_index_unchanged_app :
    (allocateFunc stA taskB).nodeMap = stA.nodeMap ∧
    (deallocateFunc stA taskB).nodeMap = stA.nodeMap ∧
    (allocateFunc stA taskB).podLister = (updateTask stA.podLister taskB taskB.nodeName).2 ∧
    (deallocateFunc stA taskB).podLister = (updateTask stA.podLister taskB "").2 :=
  eventHandlers_unknown_node_index_unchanged stA taskB rfl

/-- **C7**: on a node known to the index, an allocate event grows the
node's entry by exactly the task (aggregate usage up by exactly the
task's request); the matching deallocate event restores the entry to its
prior value exactly; and both handlers preserve the invariant
`aggregateUsage = Σ request of bound pods` across the whole index. -/
theorem eventHandlers_usage_invariant :
    (∀ (st : PluginState) (task : Pod) (ni : NodeInfo),
      st.nodeMap.lookup task.nodeName = some ni →
      (allocateFunc st task).nodeMap.lookup task.nodeName = some (ni.addPod task) ∧
      (ni.addPod task).requested = ni.requested.add task.request) ∧
    (∀ (st : PluginState) (task : Pod) (ni : NodeInfo),
      st.nodeMap.lookup task.nodeName = some ni →
      (∀ q ∈ ni.pods, q.key ≠ task.key) →
      (deallocateFunc (allocateFunc st task) task).nodeMap.lookup task.nodeName =
        some ni) ∧
    (∀ (st : PluginState) (task : Pod),
      invState st → invState (allocateFunc st task)) ∧
    (∀ (st : PluginState) (task : Pod),
      invState st →
      (∀ ni, st.nodeMap.lookup task.nodeName = some ni →
        ∀ q ∈ ni.pods, q.key = task.key → q.request = task.request) →
      invState (deallocateFunc st task)) := by
  have halloc : ∀ (st : PluginState) (task : Pod) (ni : NodeInfo),
      st.nodeMap.lookup task.nodeName = some ni →
      (allocateFunc st task).nodeMap.lookup task.nodeName = some (ni.addPod task) := by
    intro st task ni h
    show (allocateFunc st task).nodeMap.lookup task.nodeName = some (ni.addPod task)
    simp only [allocateFunc, h]
    exact lookup_mapUpdate_self st.nodeMap task.nodeName _ ni h
  refine ⟨?_, ?_, ?_, ?_⟩
  · intro st task ni h
    exact ⟨halloc st task ni h, rfl⟩
  · intro st task ni h hfresh
    have h1 := halloc st task ni h
    have hrm : (ni.addPod task).removePod ({ task with nodeName := "" }) = ni := by
      show (if (ni.pods ++ [task]).any
              (fun q => q.key = ({ task with nodeName := "" } : Pod).key) then
              { (ni.addPod task) with
                pods := removePodFromList (ni.pods ++ [task]) { task with nodeName := "" },
                requested := (ni.requested.add task.request).sub
                  ({ task with nodeName := "" } : Pod).request }
            else ni.addPod task) = ni
      rw [if_pos (any_key_append_self ni.pods ({ task with nodeName := "" }) task rfl)]
      refine NodeInfo.ext ?_ ?_ ?_
      · exact removePodFromList_append_self ni.pods _ task rfl hfresh
      · exact Resource.add_sub_cancel ni.requested task.request
      · rfl
    simp only [deallocateFunc, h1]
    show (mapUpdate (allocateFunc st task).nodeMap task.nodeName
        ((ni.addPod task).removePod { task with nodeName := "" })).lookup
        task.nodeName = some ni
    rw [hrm]
    exact lookup_mapUpdate_self (allocateFunc st task).nodeMap task.nodeName ni
      (ni.addPod task) h1
  · intro st task hinv
    cases hcase : st.nodeMap.lookup task.nodeName with
    | none =>
      intro p hp
      simp only [allocateFunc, hcase] at hp
      exact hinv p hp
    | some ni =>
      intro p hp
      simp only [allocateFunc, hcase] at hp
      rcases mem_mapUpdate _ _ _ p hp with h' | h'
      · exact hinv p h'
      · have hni : invEntry ni := hinv (task.nodeName, ni) (lookup_mem _ _ _ hcase)
        rw [h']
        show (ni.addPod task).requested = sumRequests (ni.addPod task).pods
        show ni.requested.add task.request = sumRequests (ni.pods ++ [task])
        rw [sumRequests_append_one, hni]
  · intro st task hinv hreq
    cases hcase : st.nodeMap.lookup task.nodeName with
    | none =>
      intro p hp
      simp only [deallocateFunc, hcase] at hp
      exact hinv p hp
    | some ni =>
      intro p hp
      simp only [deallocateFunc, hcase] at hp
      rcases mem_mapUpdate _ _ _ p hp with h' | h'
      · exact hinv p h'
      · have hni : invEntry ni := hinv (task.nodeName, ni) (lookup_mem _ _ _ hcase)
        rw [h']
        show invEntry (ni.removePod { task with nodeName := "" })
        unfold NodeInfo.removePod
        by_cases hb :
            ni.pods.any (fun q => q.key = ({ task with nodeName := "" } : Pod).key) = true
        · rw [if_pos hb]
          have hr : ∀ q ∈ ni.pods,
              q.key = ({ task with nodeName := "" } : Pod).key →
              q.request = ({ task with nodeName := "" } : Pod).request :=
            fun q hq hk => hreq ni hcase q hq hk
          show ni.requested.sub ({ task with nodeName := "" } : Pod).request =
            sumRequests (removePodFromList ni.pods { task with nodeName := "" })
          rw [sumRequests_remove ni.pods _ hr hb, hni]
        · rw [if_neg hb]
          exact hni

/-- Witness for C7 at a concrete indexed node, fresh task, and valid
initial state. -/
theorem eventHandlers_usage_invariant_app :
    (allocateFunc stA podC).nodeMap.lookup podC.nodeName =
      some ((NodeInfo.new []).addPod podC) ∧
    ((NodeInfo.new []).addPod podC).requested =
      (NodeInfo.new []).requested.add podC.request ∧
    (deallocateFunc (allocateFunc stA podC) podC).nodeMap.lookup podC.nodeName =
      some (NodeInfo.new []) ∧
    invState (allocateFunc stA podC) := by
  obtain ⟨ha, hb, hc, _⟩ := eventHandlers_usage_invariant
  refine ⟨(ha stA podC (NodeInfo.new []) rfl).1, (ha stA podC (NodeInfo.new []) rfl).2,
    hb stA podC (NodeInfo.new []) rfl ?_, hc stA podC ?_⟩
  · intro q hq
    simp [NodeInfo.new] at hq
  · intro p hp
    simp only [stA, List.mem_singleton] at hp
    rw [hp]
    rfl

/-- **C8**: on a successful scoring call the composite score is linear
in each weight independently: scaling one weight by an integer `k`
changes the score by exactly `(k - 1)` times that heuristic's current
contribution (equivalently, the contribution scales to `k` times), and
a `leastrequested.weight` of 0 makes the Least-Requested contribution
exactly 0 regardless of its raw sub-score. The weight set is written
out as its four components `⟨wl, wn, wp, wb⟩`. -/
theorem nodeOrderFn_weight_linearity (H : Heuristics) (wl wn wp wb : Int)
    (st : PluginState) (ns : List V1Node) (task : Pod) (node : ApiNode)
    (h1 h2 h3 : HostPriority) (l : List HostPriority)
    (e1 : H.leastRequestedPriorityMap task (resolveNodeInfo st.nodeMap node) = .ok h1)
    (e2 : H.balancedResourceAllocationMap task (resolveNodeInfo st.nodeMap node) = .ok h2)
    (e3 : H.calculateNodeAffinityPriorityMap task (resolveNodeInfo st.nodeMap node) = .ok h3)
    (e4 : H.interPodAffinity task st.podLister st.nodeMap ns = .ok l) :
    (∀ k : Int, nodeOrderFn H ⟨k * wl, wn, wp, wb⟩ st ns task node =
      .ok (h1.score * wl + h2.score * wb + h3.score * wn
           + getInterPodAffinityScore node.name l * wp
           + (k - 1) * (h1.score * wl))) ∧
    (∀ k : Int, nodeOrderFn H ⟨wl, wn, wp, k * wb⟩ st ns task node =
      .ok (h1.score * wl + h2.score * wb + h3.score * wn
           + getInterPodAffinityScore node.name l * wp
           + (k - 1) * (h2.score * wb))) ∧
    (∀ k : Int, nodeOrderFn H ⟨wl, k * wn, wp, wb⟩ st ns task node =
      .ok (h1.score * wl + h2.score * wb + h3.score * wn
           + getInterPodAffinityScore node.name l * wp
           + (k - 1) * (h3.score * wn))) ∧
    (∀ k : Int, nodeOrderFn H ⟨wl, wn, k * wp, wb⟩ st ns task node =
      .ok (h1.score * wl + h2.score * wb + h3.score * wn
           + getInterPodAffinityScore node.name l * wp
           + (k - 1) * (getInterPodAffinityScore node.name l * wp))) ∧
    nodeOrderFn H ⟨0, wn, wp, wb⟩ st ns task node =
      .ok (h2.score * wb + h3.score * wn
           + getInterPodAffinityScore node.name l * wp) := by
  refine ⟨?_, ?_, ?_, ?_, ?_⟩
  · intro k
    have hh : scoreAgainstEntry H ⟨k * wl, wn, wp, wb⟩ st ns task node
        (resolveNodeInfo st.nodeMap node) =
        .ok (h1.score * (k * wl) + h2.score * wb + h3.score * wn
             + getInterPodAffinityScore node.name l * wp) :=
      scoreAgainstEntry_eq_of_ok H ⟨k * wl, wn, wp, wb⟩ st ns task node _
        h1 h2 h3 l e1 e2 e3 e4
    show scoreAgainstEntry H ⟨k * wl, wn, wp, wb⟩ st ns task node
        (resolveNodeInfo st.nodeMap node) = _
    rw [hh]
    exact congrArg Except.ok (by ring)
  · intro k
    have hh : scoreAgainstEntry H ⟨wl, wn, wp, k * wb⟩ st ns task node
        (resolveNodeInfo st.nodeMap node) =
        .ok (h1.score * wl + h2.score * (k * wb) + h3.score * wn
             + getInterPodAffinityScore node.name l * wp) :=
      scoreAgainstEntry_eq_of_ok H ⟨wl, wn, wp, k * wb⟩ st ns task node _
        h1 h2 h3 l e1 e2 e3 e4
    show scoreAgainstEntry H ⟨wl, wn, wp, k * wb⟩ st ns task node
        (resolveNodeInfo st.nodeMap node) = _
    rw [hh]
    exact congrArg Except.ok (by ring)
  · intro k
    have hh : scoreAgainstEntry H ⟨wl, k * wn, wp, wb⟩ st ns task node
        (resolveNodeInfo st.nodeMap node) =
        .ok (h1.score * wl + h2.score * wb + h3.score * (k * wn)
             + getInterPodAffinityScore node.name l * wp) :=
      scoreAgainstEntry_eq_of_ok H ⟨wl, k * wn, wp, wb⟩ st ns task node _
        h1 h2 h3 l e1 e2 e3 e4
    show scoreAgainstEntry H ⟨wl, k * wn, wp, wb⟩ st ns task node
        (resolveNodeInfo st.nodeMap node) = _
    rw [hh]
    exact congrArg Except.ok (by ring)
  · intro k
    have hh : scoreAgainstEntry H ⟨wl, wn, k * wp, wb⟩ st ns task node
        (resolveNodeInfo st.nodeMap node) =
        .ok (h1.score * wl + h2.score * wb + h3.score * wn
             + getInterPodAffinityScore node.name l * (k * wp)) :=
      scoreAgainstEntry_eq_of_ok H ⟨wl, wn, k * wp, wb⟩ st ns task node _
        h1 h2 h3 l e1 e2 e3 e4
    show scoreAgainstEntry H ⟨wl, wn, k * wp, wb⟩ st ns task node
        (resolveNodeInfo st.nodeMap node) = _
    rw [hh]
    exact congrArg Except.ok (by ring)
  · have hh : scoreAgainstEntry H ⟨0, wn, wp, wb⟩ st ns task node
        (resolveNodeInfo st.nodeMap node) =
        .ok (h1.score * 0 + h2.score * wb + h3.score * wn
             + getInterPodAffinityScore node.name l * wp) :=
      scoreAgainstEntry_eq_of_ok H ⟨0, wn, wp, wb⟩ st ns task node _
        h1 h2 h3 l e1 e2 e3 e4
    show scoreAgainstEntry H ⟨0, wn, wp, wb⟩ st ns task node
        (resolveNodeInfo st.nodeMap node) = _
    rw [hh]
    exact congrArg Except.ok (by ring)

/-- Witness for C8: scaling the Least-Requested weight by 6 and setting
it to 0 at a concrete state. -/
theorem nodeOrderFn_weight_linearity_app :
    nodeOrderFn Hok ⟨6 * 2, 3, 4, 5⟩ stA [] podA nodeA =
      .ok (7 * 2 + 8 * 5 + 9 * 3 + 10 * 4 + (6 - 1) * (7 * 2)) ∧
    nodeOrderFn Hok ⟨0, 3, 4, 5⟩ stA [] podA nodeA =
      .ok (8 * 5 + 9 * 3 + 10 * 4) := by
  obtain ⟨hk, _, _, _, hz⟩ := nodeOrderFn_weight_linearity Hok 2 3 4 5 stA []
    podA nodeA ⟨"n1", 7⟩ ⟨"n1", 8⟩ ⟨"n1", 9⟩ [⟨"n1", 10⟩] rfl rfl rfl rfl
  exact ⟨hk 6, hz⟩

/-- **C9**: the scorer is deterministic and mutation-free: threading the
plugin state through a call returns it unchanged, a second call on the
resulting state returns the identical result, and the entry synthesized
for an unindexed node is not inserted (the node stays absent). -/
theorem nodeOrderFn_idempotent_no_mutation (H : Heuristics)
    (w : priorityWeight) (st : PluginState) (ns : List V1Node)
    (task : Pod) (node : ApiNode) :
    (nodeOrderFnSt H w st ns task node).2 = st ∧
    (nodeOrderFnSt H w ((nodeOrderFnSt H w st ns task node).2) ns task node).1 =
      (nodeOrderFnSt H w st ns task node).1 ∧
    (st.nodeMap.lookup node.name = none →
      ((nodeOrderFnSt H w st ns task node).2).nodeMap.lookup node.name = none) :=
  ⟨rfl, rfl, fun h => h⟩

/-- Witness for C9 at a concrete state and a node absent from the
index. -/
theorem nodeOrderFn_idempotent_no_mutation_app :
    (nodeOrderFnSt Hok wA stA [] podA nodeB).2 = stA ∧
    (nodeOrderFnSt Hok wA ((nodeOrderFnSt Hok wA stA [] podA nodeB).2) []
        podA nodeB).1 =
      (nodeOrderFnSt Hok wA stA [] podA nodeB).1 ∧
    ((nodeOrderFnSt Hok wA stA [] podA nodeB).2).nodeMap.lookup nodeB.name = none := by
  obtain ⟨a, b, c⟩ := nodeOrderFn_idempotent_no_mutation Hok wA stA [] podA nodeB
  exact ⟨a, b, c rfl⟩

/-- **C10**: `cachedNodeInfo.GetNodeInfo` returns the named node when
the session knows the name; when the name is absent it returns, without
error, the first cached node hosting a pod with an empty node-name
assignment; it errors only when the name is absent and no cached node
hosts such an unbound pod. -/
theorem GetNodeInfo_spec (nodes : List (String × SessionNode)) (name : String) :
    (∀ ni, nodes.lookup name = some ni → GetNodeInfo nodes name = .ok ni.node) ∧
    (∀ i (hi : i < nodes.length),
      nodes.lookup name = none →
      ((nodes.get ⟨i, hi⟩).2.pods.any (fun pod => pod.nodeName = "")) = true →
      (∀ j (hj : j < i),
        ((nodes.get ⟨j, Nat.lt_trans hj hi⟩).2.pods.any
          (fun pod => pod.nodeName = "")) = false) →
      GetNodeInfo nodes name = .ok (nodes.get ⟨i, hi⟩).2.node) ∧
    (nodes.lookup name = none →
      (∀ p ∈ nodes, p.2.pods.any (fun pod => pod.nodeName = "") = false) →
      GetNodeInfo nodes name = .error ("failed to find node <" ++ name ++ ">")) := by
  refine ⟨?_, ?_, ?_⟩
  · intro ni h
    simp [GetNodeInfo, h]
  · intro i hi habs hpos hfirst
    have hf := find?_of_first nodes
      (fun p => p.2.pods.any (fun pod => pod.nodeName = "")) i hi hpos hfirst
    simp [GetNodeInfo, habs, hf]
  · intro habs hall
    have hf : nodes.find?
        (fun p => p.2.pods.any (fun pod => pod.nodeName = "")) = none := by
      rw [List.find?_eq_none]
      intro p hp
      simp [hall p hp]
    simp [GetNodeInfo, habs, hf]

/-- Witness for C10: a present name, an absent name resolved to the
first cached node with an unbound pod, and an absent name with no
unbound pod anywhere. -/
theorem GetNodeInfo_spec_app :
    GetNodeInfo snodes "n1" = .ok ⟨"n1"⟩ ∧
    GetNodeInfo snodes "n9" = .ok ⟨"n2"⟩ ∧
    GetNodeInfo snodesBound "n9" = .error ("failed to find node <" ++ "n9" ++ ">") := by
  obtain ⟨g1, _, _⟩ := GetNodeInfo_spec snodes "n1"
  obtain ⟨_, g2, _⟩ := GetNodeInfo_spec snodes "n9"
  obtain ⟨_, _, g3⟩ := GetNodeInfo_spec snodesBound "n9"
  refine ⟨g1 ⟨⟨"n1"⟩, [⟨"ns1", "q1", "n1", rA⟩]⟩ rfl, ?_, ?_⟩
  · refine g2 1 (by decide) rfl rfl ?_
    intro j hj
    have hj0 : j = 0 := by omega
    subst hj0
    rfl
  · refine g3 rfl ?_
    intro p hp
    simp only [snodesBound, List.mem_singleton] at hp
    rw [hp]
    rfl

end NodeOrder
